import Mathlib

/-!
Verification development for the flexible SQL query builder
(`app/utils/query_builder.py` and its static catalogs in
`app/constants/*.py` and `app/utils/constants.py`).

The Python code is shallowly embedded: every definition below is a direct
translation of the corresponding Python function or constant; Python dicts
become association lists in their (insertion-ordered) literal order, Python
strings become Lean `String`s manipulated through their underlying
character lists, and raised `QueryBuildError`s become `Except` errors.
-/

namespace QB

/-! ## String helpers (Python string primitives, modelled on `String.data`) -/

/-- Build a string from a character list. -/
def ofChars (cs : List Char) : String := ⟨cs⟩

/-- Prefix test on character lists (same function as `List.isPrefixOf`,
written to recurse on the pattern first so that it computes even when only
the pattern is concrete). -/
def isPre (pat s : List Char) : Bool :=
  match pat with
  | [] => true
  | a :: as =>
    match s with
    | [] => false
    | b :: bs => (a == b) && isPre as bs

/-- Python `s.startswith(p)`. -/
def strStartsWith (s p : String) : Bool := isPre p.data s.data

/-- Drop the first `n` characters (Python `s[n:]`). -/
def strDrop (s : String) (n : Nat) : String := ofChars (s.data.drop n)

/-- Python `s.strip()` (ASCII whitespace). -/
def pyStrip (s : String) : String :=
  ofChars (((s.data.dropWhile Char.isWhitespace).reverse.dropWhile Char.isWhitespace).reverse)

/-- Python `c in s` for a single character. -/
def strContainsChar (s : String) (c : Char) : Bool := s.data.contains c

/-- Helper for `pySplit`: split a character list on a separator character. -/
def splitCharAux (c : Char) : List Char → List Char → List String
  | [], acc => [ofChars acc.reverse]
  | x :: xs, acc =>
    if x = c then ofChars acc.reverse :: splitCharAux c xs []
    else splitCharAux c xs (x :: acc)

/-- Python `s.split(c)` (split on every occurrence; empty parts kept). -/
def pySplit (s : String) (c : Char) : List String := splitCharAux c s.data []

/-- Python `s.split(c, 1)` when `c` occurs in `s`: the part before the first
separator and everything after it. (The code only calls this after checking
that the separator is present.) -/
def pySplitFirst (s : String) (c : Char) : String × String :=
  let pre := s.data.takeWhile (· ≠ c)
  (ofChars pre, ofChars (s.data.drop (pre.length + 1)))

/-- Helper for `containsSub`: does `pat` occur as a contiguous run? -/
def subScan (pat : List Char) : List Char → Bool
  | [] => pat.isEmpty
  | c :: rest => isPre pat (c :: rest) || subScan pat rest

/-- Python `pat in s` (substring test). -/
def containsSub (s pat : String) : Bool := subScan pat.data s.data

/-- Python `s.upper()` (ASCII). -/
def pyUpper (s : String) : String := ofChars (s.data.map Char.toUpper)

/-! ## Join catalogs

`ALL_JOIN_PATHS` (`app/constants/joins.py`) is the `dict`-merge of
`BASE_JOINS`, `TRANSACTION_TYPE_JOIN_PATHS`, `RELATIONSHIP_JOIN_PATHS`,
`ADVISORY_JOIN_PATHS`, `STATUS_JOIN_PATHS`, `COMPANY_REL_JOIN_PATHS` and
`ROLE_SPECIFIC_JOINS`; duplicate keys (`transaction_company_rel`,
`comp_rel_type`) carry identical values in both sources, so the merged
dict is written out directly with first-occurrence key order.
`JOIN_PATHS` is from `app/utils/constants.py`. -/

/-- One named join specification (table, alias, condition, prerequisites). -/
structure JoinInfo where
  table : String
  joinAlias : String
  condition : String
  requires : List String
deriving DecidableEq, Repr

def ALL_JOIN_PATHS : List (String × JoinInfo) := [
  ("company", ⟨"ciqCompany", "c", "tr.companyId = c.companyId", []⟩),
  ("industry", ⟨"ciqSimpleIndustry", "si", "c.simpleIndustryId = si.simpleIndustryId", ["company"]⟩),
  ("country", ⟨"ciqCountryGeo", "geo", "c.countryId = geo.countryId", ["company"]⟩),
  ("currency", ⟨"ciqCurrency", "cur", "tr.currencyId = cur.currencyId", []⟩),
  ("transaction_type", ⟨"ciqTransactionType", "tt", "tr.transactionIdTypeId = tt.transactionIdTypeId", []⟩),
  ("transaction_company_rel", ⟨"ciqTransactionToCompanyRel", "tcr", "tr.transactionId = tcr.transactionId", []⟩),
  ("comp_rel_type", ⟨"ciqTransactionToCompRelType", "crt", "tcr.transactionToCompRelTypeId = crt.transactionToCompRelTypeId", ["transaction_company_rel"]⟩),
  ("related_company", ⟨"ciqCompany", "rc", "tcr.companyRelId = rc.companyId", ["transaction_company_rel"]⟩),
  ("transaction_to_advisor", ⟨"ciqTransactionToAdvisor", "tadv", "tr.transactionId = tadv.transactionId", []⟩),
  ("advisor_type", ⟨"ciqAdvisorType", "advtype", "tadv.advisorTypeId = advtype.advisorTypeId", ["transaction_to_advisor"]⟩),
  ("advisor_company", ⟨"ciqCompany", "advisor", "tadv.companyId = advisor.companyId", ["transaction_to_advisor"]⟩),
  ("transaction_status", ⟨"ciqTransactionStatus", "ts", "tr.statusId = ts.statusId", []⟩),
  ("company_rel", ⟨"ciqCompany", "rc", "tcr.companyRelId = rc.companyId", ["transaction_company_rel"]⟩),
  ("acquirer", ⟨"ciqCompany", "acquirer", "tcr.companyRelId = acquirer.companyId AND tcr.transactionToCompRelTypeId = 1", ["transaction_company_rel"]⟩),
  ("target", ⟨"ciqCompany", "target", "tr.companyId = target.companyId", []⟩),
  ("seller", ⟨"ciqCompany", "seller", "tcr.companyRelId = seller.companyId AND tcr.transactionToCompRelTypeId = 3", ["transaction_company_rel"]⟩),
  ("investor", ⟨"ciqCompany", "investor", "tcr.companyRelId = investor.companyId AND tcr.transactionToCompRelTypeId = 4", ["transaction_company_rel"]⟩)
]

def JOIN_PATHS : List (String × JoinInfo) := [
  ("type", ⟨"ciqTransactionType", "tt", "tr.transactionIdTypeId = tt.transactionIdTypeId", []⟩),
  ("transaction_type", ⟨"ciqTransactionType", "trtype", "tr.transactionIdTypeId = trtype.transactionIdTypeId", []⟩),
  ("company", ⟨"ciqCompany", "c", "tr.companyId = c.companyId", []⟩),
  ("company_alt", ⟨"ciqCompany", "company", "tr.companyId = company.companyId", []⟩),
  ("company_reverse", ⟨"ciqCompany", "c", "c.companyId = tr.companyId", []⟩),
  ("industry", ⟨"ciqSimpleIndustry", "si", "c.simpleIndustryId = si.simpleIndustryId", ["company"]⟩),
  ("country", ⟨"ciqCountryGeo", "geo", "c.countryId = geo.countryId", ["company"]⟩),
  ("currency", ⟨"ciqCurrency", "cur", "tr.currencyId = cur.currencyId", []⟩),
  ("target_company", ⟨"ciqCompany", "targetcompany", "tr.companyId = targetcompany.companyId", []⟩),
  ("target_industry", ⟨"ciqSimpleIndustry", "si", "targetcompany.simpleIndustryId = si.simpleIndustryId", ["target_company"]⟩),
  ("target_country", ⟨"ciqCountryGeo", "country", "targetcompany.countryId = country.countryId", ["target_company"]⟩),
  ("transaction_rel", ⟨"ciqTransactionToCompanyRel", "cr", "tr.transactionId = cr.transactionId", []⟩),
  ("relation_type", ⟨"ciqTransactionToCompRelType", "crt", "cr.transactionToCompRelTypeId = crt.transactionToCompRelTypeId", ["transaction_rel"]⟩),
  ("company_rel", ⟨"ciqCompanyRel", "crel", "cr.companyRelId = crel.companyRelId", ["transaction_rel"]⟩),
  ("buyer_company", ⟨"ciqCompany", "buyer", "crel.companyId = buyer.companyId", ["company_rel"]⟩),
  ("acquirer_company", ⟨"ciqCompany", "acquirer", "crel.companyId = acquirer.companyId", ["company_rel"]⟩),
  ("buyer_industry", ⟨"ciqSimpleIndustry", "buyersi", "buyer.simpleIndustryId = buyersi.simpleIndustryId", ["buyer_company"]⟩),
  ("buyer_country", ⟨"ciqCountryGeo", "buyergeo", "buyer.countryId = buyergeo.countryId", ["buyer_company"]⟩)
]

/-- Join lookup order used by `_add_join_with_dependencies` and
`_add_join_for_prefix`: `ALL_JOIN_PATHS` first, then `JOIN_PATHS`. -/
def lookupJoin (key : String) : Option JoinInfo :=
  match ALL_JOIN_PATHS.lookup key with
  | some info => some info
  | none => JOIN_PATHS.lookup key

/-- Prerequisites of a catalog join (empty when the key is unknown). -/
def requiresOf (key : String) : List String :=
  ((lookupJoin key).map (·.requires)).getD []

/-- Alias of a catalog join (empty when the key is unknown). -/
def joinAliasOf (key : String) : String :=
  ((lookupJoin key).map (·.joinAlias)).getD ""

/-- Does `key` resolve in either catalog? -/
def isCatalogJoin (key : String) : Bool := (lookupJoin key).isSome

/-- Every key of either catalog, in lookup order. -/
def allCatalogKeys : List String :=
  ALL_JOIN_PATHS.map Prod.fst ++ JOIN_PATHS.map Prod.fst

/-! ## Join activation (`_add_join_with_dependencies`)

The Python method recurses through the `requires` lists; the recursion depth
is bounded by the catalog's prerequisite chains (at most 3 in these
catalogs), so a fuel of 32 is far more than enough for every call the
builder can make. -/

/-- `_add_join_with_dependencies`, on the list of active join keys
(the stored `info` of an active join is always `lookupJoin key`). -/
def addJoinFuel : Nat → List String → String → List String
  | 0, js, _ => js
  | fuel + 1, js, key =>
    if js.contains key then js
    else
      match lookupJoin key with
      | none => js
      | some info =>
        (info.requires.foldl (fun acc d => addJoinFuel fuel acc d) js) ++ [key]

def joinFuel : Nat := 32

/-- `_add_join_with_dependencies` with the standing fuel. -/
def addJoin (js : List String) (key : String) : List String :=
  addJoinFuel joinFuel js key

/-- The transitive-prerequisite set of a join name (the spec's "transitive
prerequisite chain"): the join itself plus, recursively, everything its
catalog entry `requires`. Unknown names contribute nothing. -/
def transPrereqsFuel : Nat → String → List String
  | 0, _ => []
  | fuel + 1, key =>
    match lookupJoin key with
    | none => []
    | some info => key :: info.requires.flatMap (transPrereqsFuel fuel)

def transPrereqs (key : String) : List String := transPrereqsFuel joinFuel key

/-! ## Field mappings (`FIELD_MAPPINGS` in `app/utils/constants.py` and the
inline `mappings` dict of `_map_field_name`) -/

def joinWith (sep : String) : List String → String
  | [] => ""
  | [x] => x
  | x :: y :: rest => x ++ sep ++ joinWith sep (y :: rest)

def FIELD_MAPPINGS : List (String × String) := [
  ("type", "tr.transactionIdTypeId"),
  ("typeName", "tt.transactionIdTypeName"),
  ("year", "tr.announcedYear"),
  ("month", "tr.announcedMonth"),
  ("day", "tr.announcedDay"),
  ("size", "tr.transactionSize"),
  ("transactionId", "tr.transactionId"),
  ("currency", "tr.currencyId"),
  ("company", "c.companyName"),
  ("companyName", "c.companyName"),
  ("companyId", "c.companyId"),
  ("target", "targetcompany.companyName"),
  ("targetId", "targetcompany.companyId"),
  ("acquirer", "acquirer.companyName"),
  ("acquirerId", "acquirer.companyId"),
  ("buyer", "buyer.companyName"),
  ("buyerId", "buyer.companyId"),
  ("industry", "si.simpleIndustryId"),
  ("industryDescription", "si.simpleIndustryDescription"),
  ("country", "geo.countryId"),
  ("countryName", "geo.country"),
  ("currencyId", "cur.currencyId"),
  ("currencyCode", "cur.currencyCode"),
  ("relationType", "crt.transactionToCompRelTypeId"),
  ("count", "COUNT(tr.transactionId)"),
  ("countDistinct", "COUNT(DISTINCT(\x7b\x7d))"),
  ("sum", "SUM(\x7b\x7d)"),
  ("avg", "AVG(\x7b\x7d)"),
  ("min", "MIN(\x7b\x7d)"),
  ("max", "MAX(\x7b\x7d)"),
  ("sumOver", "SUM(\x7b\x7d) OVER (PARTITION BY \x7b\x7d)"),
  ("avgOver", "AVG(\x7b\x7d) OVER (PARTITION BY \x7b\x7d)"),
  ("countOver", "COUNT(\x7b\x7d) OVER (PARTITION BY \x7b\x7d)")
]

/-- The inline `mappings` dict inside `_map_field_name`. -/
def builderFieldMap : List (String × String) := [
  ("type", "tr.transactionIdTypeId"),
  ("typeName", "tt.transactionIdTypeName"),
  ("year", "tr.announcedYear"),
  ("month", "tr.announcedMonth"),
  ("day", "tr.announcedDay"),
  ("size", "tr.transactionSize"),
  ("status", "tr.statusId"),
  ("currency", "tr.currencyId"),
  ("company", "c.companyName"),
  ("companyName", "c.companyName"),
  ("companyId", "c.companyId"),
  ("industry", "si.simpleIndustryId"),
  ("country", "geo.countryId"),
  ("acquirerId", "acquirer.companyId"),
  ("targetId", "target.companyId"),
  ("sellerId", "seller.companyId"),
  ("investorId", "investor.companyId"),
  ("advisorId", "advisor.companyId"),
  ("relationType", "crt.transactionToCompRelTypeId"),
  ("leadInvestor", "tcr.leadInvestorFlag"),
  ("individualEquity", "tcr.individualEquity"),
  ("percentAcquired", "tcr.percentAcquired"),
  ("count", "COUNT(tr.transactionId)")
]

/-- `_map_field_name`: dotted names pass through, then `FIELD_MAPPINGS`,
then the inline dict, else the key itself. -/
def mapFieldName (key : String) : String :=
  if strContainsChar key '.' then key
  else
    match FIELD_MAPPINGS.lookup key with
    | some v => v
    | none => (builderFieldMap.lookup key).getD key

/-! ## Filter operators and filter translation (`_process_filter`) -/

/-- `FILTER_OPERATORS` in its dict (insertion) order. -/
def FILTER_OPERATORS : List (String × String) := [
  ("gte", ">="),
  ("lte", "<="),
  ("gt", ">"),
  ("lt", "<"),
  ("ne", "!="),
  ("like", "LIKE"),
  ("ilike", "ILIKE"),
  ("null", "IS NULL"),
  ("notnull", "IS NOT NULL"),
  ("between", "BETWEEN \x7b\x7d AND \x7b\x7d")
]

/-- Body of the matched-operator branch of `_process_filter`: the predicate
fragment (or the raised `QueryBuildError` detail) for operator `op` applied
to the remainder `filterValue`. -/
def filterOpResult (fieldName op sqlOp filterValue : String) : Except String String :=
  if op = "between" then
    if strContainsChar filterValue ',' then
      let p := pySplitFirst filterValue ','
      .ok (fieldName ++ " BETWEEN '" ++ pyStrip p.1 ++ "' AND '" ++ pyStrip p.2 ++ "'")
    else
      .error ("Invalid BETWEEN format: " ++ filterValue)
  else if op = "null" then .ok (fieldName ++ " IS NULL")
  else if op = "notnull" then .ok (fieldName ++ " IS NOT NULL")
  else .ok (fieldName ++ " " ++ sqlOp ++ " '" ++ filterValue ++ "'")

/-- The `for op_prefix, sql_op in FILTER_OPERATORS.items()` loop of
`_process_filter`: the first operator whose `op:` prefix matches wins. -/
def processFilterLoop (fieldName value : String) : List (String × String) → Option (Except String String)
  | [] => none
  | (op, sqlOp) :: rest =>
    if strStartsWith value (op ++ ":") then
      some (filterOpResult fieldName op sqlOp (strDrop value (op.length + 1)))
    else processFilterLoop fieldName value rest

/-- The first operator of `FILTER_OPERATORS` (in its fixed priority order
gte, lte, gt, lt, ne, like, ilike, null, notnull, between) whose `op:`
prefix matches the raw value. -/
def firstMatchingOp (value : String) : Option (String × String) :=
  FILTER_OPERATORS.find? (fun p => strStartsWith value (p.1 ++ ":"))

/-- The single predicate fragment appended by `_process_filter(key, value)`
(the spec's `translate(field, rawValue)`), or the `QueryBuildError` detail. -/
def processFilterValue (key value : String) : Except String String :=
  let fieldName := mapFieldName key
  match processFilterLoop fieldName value FILTER_OPERATORS with
  | some r => r
  | none =>
    if strContainsChar value ',' then
      .ok (fieldName ++ " IN (" ++
        joinWith ", " ((pySplit value ',').map (fun v => "'" ++ pyStrip v ++ "'")) ++ ")")
    else
      .ok (fieldName ++ " = '" ++ value ++ "'")

/-! ## Default status filter (`_add_default_status_filter`) -/

/-- `DEFAULT_INCLUDED_STATUSES` from `app/constants/transaction_statuses.py`. -/
def DEFAULT_INCLUDED_STATUSES : List Nat := [1, 2, 3, 8, 9, 10]

/-- The injected default predicate text. -/
def defaultStatusCondition : String :=
  "tr.statusId IN (" ++ joinWith ", " (DEFAULT_INCLUDED_STATUSES.map toString) ++ ")"

/-- `_add_default_status_filter` on the accumulated predicate list. -/
def addDefaultStatusFilter (conds : List String) : List String :=
  if conds.any (fun c => containsSub c "tr.statusId") then conds
  else conds ++ [defaultStatusCondition]

/-! ## Query patterns (`QUERY_PATTERNS` and `_detect_query_pattern`) -/

structure PatternInfo where
  conditions : List (String × String)
  recommendedJoins : List String
deriving DecidableEq, Repr

/-- `QUERY_PATTERNS` in dict (insertion) order; every entry carries both a
`conditions` and a `recommended_joins` field, so the Python membership
checks on those keys are always true. -/
def QUERY_PATTERNS : List (String × PatternInfo) := [
  ("private_placements", ⟨[("type", "1")], ["type", "company"]⟩),
  ("buybacks", ⟨[("type", "14")], ["transaction_type", "company_alt"]⟩),
  ("ma_transactions", ⟨[("type", "2")],
    ["transaction_type", "target_company", "transaction_rel",
     "relation_type", "company_rel", "acquirer_company"]⟩),
  ("industry_country_analysis", ⟨[("industry", "*"), ("country", "*")],
    ["company", "industry", "country"]⟩)
]

/-- One pattern's condition check: every declared condition key must be
present, and its value must equal the declared value unless that is the
wildcard `*`. -/
def patternMatches (params : List (String × String)) (conds : List (String × String)) : Bool :=
  conds.all (fun c =>
    match params.lookup c.1 with
    | none => false
    | some v => c.2 = "*" || v = c.2)

/-- The catalog loop of `_detect_query_pattern`: first matching pattern in
catalog order. -/
def detectFromCatalog (params : List (String × String)) : Option String :=
  (QUERY_PATTERNS.find? (fun p => patternMatches params p.2.conditions)).map Prod.fst

/-- `_detect_query_pattern`: catalog first, then the hard-coded
transaction-type shapes; `none` leaves the builder's pattern unchanged. -/
def detectQueryPattern (params : List (String × String)) : Option String :=
  match detectFromCatalog params with
  | some name => some name
  | none =>
    match params.lookup "type" with
    | some v =>
      if v = "2" then some "ma_transactions"
      else if v = "14" then some "buybacks"
      else if v = "1" then some "private_placements"
      else none
    | none => none

/-! ## Builder state (`FlexibleQueryBuilder.__init__`)

`used_aliases` and `field_prefixes` are initialized by the constructor but
never read or written afterwards, so they are omitted. -/

structure BuilderState where
  schema : String
  baseTable : String
  baseAlias : String
  selectFields : List String
  whereConditions : List String
  groupByFields : List String
  orderByClauses : List String
  limitValue : Option Int
  offsetValue : Option Int
  joins : List String
  detectedPattern : Option String
  orConditions : List String
  hasWindowFunction : Bool
  hasDistinct : Bool
deriving DecidableEq, Repr

/-- A fresh builder (`FlexibleQueryBuilder(schema)` with the default base
table and alias). -/
def initBuilder (schema : String) : BuilderState :=
  { schema := schema, baseTable := "ciqTransaction", baseAlias := "tr",
    selectFields := [], whereConditions := [], groupByFields := [],
    orderByClauses := [], limitValue := none, offsetValue := none,
    joins := [], detectedPattern := none, orConditions := [],
    hasWindowFunction := false, hasDistinct := false }

/-! ## Join inference from field references
(`_check_field_for_join`, `_add_join_for_prefix`) -/

def isLowerAZ (c : Char) : Bool := 'a' ≤ c && c ≤ 'z'

def isAlphaUnd (c : Char) : Bool := c.isAlpha || c = '_'

/-- The alias captured by `re.match(r'([a-z]+)\.', field)` (anchored at the
start of the field). -/
def fieldAliasOf (field : String) : Option String :=
  let pre := field.data.takeWhile isLowerAZ
  if pre.isEmpty then none
  else if field.data.get? pre.length = some '.' then some (ofChars pre)
  else none

/-- `_add_join_for_prefix`: look the alias up in `ALL_JOIN_PATHS`, then in
`JOIN_PATHS`; skip the base alias, unknown aliases, and aliases already
provided by an active join; otherwise activate the first catalog entry with
that alias. -/
def addJoinForPrefix (js : List String) (baseAlias pfx : String) : List String :=
  if pfx = baseAlias then js
  else
    let matchingAll := ALL_JOIN_PATHS.filter (fun p => p.2.joinAlias = pfx)
    let matching :=
      if matchingAll.isEmpty then JOIN_PATHS.filter (fun p => p.2.joinAlias = pfx)
      else matchingAll
    if matching.isEmpty then js
    else if js.any (fun k => joinAliasOf k = pfx) then js
    else
      match matching.head? with
      | some p => addJoin js p.1
      | none => js

/-- `_check_field_for_join`. -/
def checkFieldForJoin (st : BuilderState) (field : String) : BuilderState :=
  match fieldAliasOf field with
  | some pfx => { st with joins := addJoinForPrefix st.joins st.baseAlias pfx }
  | none => st

/-! ## Regex helpers for `_process_select` and `_add_field_based_joins` -/

/-- `re.search(lit + r'\((.*?)\)', field, re.IGNORECASE)` where `lit` is an
upper-case literal ending in `(`: scan for the literal (case-insensitively),
then the shortest run of non-`)` characters (`.` does not cross a newline)
closed by `)`. -/
def searchLitParen (lit : List Char) : List Char → Option String
  | [] => none
  | c :: rest =>
    let l := c :: rest
    if isPre lit (l.map Char.toUpper) then
      let after := l.drop lit.length
      let content := after.takeWhile (fun ch => ch ≠ ')' && ch ≠ '\n')
      if after.get? content.length = some ')' then some (ofChars content)
      else searchLitParen lit rest
    else searchLitParen lit rest

/-- Shortest newline-free prefix followed by `))` (the lazy group of
`COUNT\(DISTINCT\((.*?)\)\)`). -/
def takeUntilDoubleParen : List Char → Option (List Char)
  | [] => none
  | ')' :: ')' :: _ => some []
  | c :: rest =>
    if c = '\n' then none
    else (takeUntilDoubleParen rest).map (c :: ·)

/-- `re.search(r'COUNT\(DISTINCT\((.*?)\)\)', field, re.IGNORECASE)`. -/
def searchCountDistinct : List Char → Option String
  | [] => none
  | c :: rest =>
    let l := c :: rest
    if isPre "COUNT(DISTINCT(".data (l.map Char.toUpper) then
      match takeUntilDoubleParen (l.drop 15) with
      | some content => some (ofChars content)
      | none => searchCountDistinct rest
    else searchCountDistinct rest

/-- The prefixes captured by `re.findall(r'([a-z]+)\.([a-zA-Z_]+)', text)`:
non-overlapping scan, resuming after each full match. -/
def findFieldRefsFuel : Nat → List Char → List String
  | 0, _ => []
  | _ + 1, [] => []
  | fuel + 1, c :: rest =>
    let l := c :: rest
    let pre := l.takeWhile isLowerAZ
    if pre.isEmpty then findFieldRefsFuel fuel rest
    else
      match l.drop pre.length with
      | '.' :: cs =>
        let name := cs.takeWhile isAlphaUnd
        if name.isEmpty then findFieldRefsFuel fuel rest
        else ofChars pre :: findFieldRefsFuel fuel (cs.drop name.length)
      | _ => findFieldRefsFuel fuel rest

def findFieldRefs (cs : List Char) : List String := findFieldRefsFuel cs.length cs

/-! ## Parameter processing (`_process_select`, `_process_group_by`,
`_process_order_by`, `_process_or_condition`, `_process_filter`) -/

/-- Errors raised while processing one parameter: Python `ValueError`s
(caught first) versus `QueryBuildError`s (caught by the generic handler);
each carries the exception text. -/
inductive ParseErr where
  | valueError (msg : String)
  | buildError (msg : String)
deriving DecidableEq, Repr

/-- The `for func in ["COUNT", "SUM", "AVG", "MIN", "MAX"]` loop of
`_process_select`. Its `continue` only continues this inner loop, so after
it the field still falls through to the plain-field mapping and is appended
a second time. -/
def aggLoop (st : BuilderState) (field : String) : BuilderState :=
  ["COUNT", "SUM", "AVG", "MIN", "MAX"].foldl (fun st func =>
    if strStartsWith (pyUpper field) (func ++ "(") then
      match searchLitParen (func ++ "(").data field.data with
      | some inner =>
        let st := checkFieldForJoin st inner
        { st with selectFields := st.selectFields ++ [field] }
      | none => st
    else st) st

/-- One `field` iteration of `_process_select`. -/
def selectOneField (st : BuilderState) (rawField : String) : BuilderState :=
  let field := pyStrip rawField
  if containsSub (pyUpper field) "OVER" then
    let st := { st with hasWindowFunction := true,
                        selectFields := st.selectFields ++ [field] }
    match searchLitParen ['('] field.data with
    | some fieldRef => checkFieldForJoin st fieldRef
    | none => st
  else if containsSub (pyUpper field) "DISTINCT" then
    let st := { st with hasDistinct := true }
    if strStartsWith (pyUpper field) "COUNT(DISTINCT(" then
      match searchCountDistinct field.data with
      | some inner =>
        let st := checkFieldForJoin st inner
        { st with selectFields := st.selectFields ++ [field] }
      | none => st
    else
      match searchLitParen "DISTINCT(".data field.data with
      | some inner =>
        let st := checkFieldForJoin st inner
        { st with selectFields := st.selectFields ++ [field] }
      | none => st
  else
    let st := aggLoop st field
    let mapped := mapFieldName field
    let st := { st with selectFields := st.selectFields ++ [mapped] }
    checkFieldForJoin st mapped

def processSelect (st : BuilderState) (value : String) : BuilderState :=
  (pySplit value ',').foldl selectOneField st

def groupByOneField (st : BuilderState) (rawField : String) : BuilderState :=
  let field := pyStrip rawField
  let mapped := mapFieldName field
  let st :=
    if st.selectFields.contains mapped then st
    else { st with selectFields := st.selectFields ++ [mapped] }
  let st := { st with groupByFields := st.groupByFields ++ [mapped] }
  checkFieldForJoin st mapped

def processGroupBy (st : BuilderState) (value : String) : BuilderState :=
  (pySplit value ',').foldl groupByOneField st

/-- One `field` iteration of `_process_order_by`; `field.split(':')` with
more than one separator makes the two-target unpacking raise a
`ValueError`. -/
def orderByOneField (st : BuilderState) (rawField : String) : Except ParseErr BuilderState :=
  let field := pyStrip rawField
  if strContainsChar field ':' then
    match pySplit field ':' with
    | [fieldName, direction] =>
      let fieldName := pyStrip fieldName
      let direction := pyUpper (pyStrip direction)
      let mapped := mapFieldName fieldName
      let st := { st with orderByClauses := st.orderByClauses ++ [mapped ++ " " ++ direction] }
      .ok (checkFieldForJoin st mapped)
    | _ => .error (.valueError "too many values to unpack (expected 2)")
  else
    let mapped := mapFieldName field
    let st := { st with orderByClauses := st.orderByClauses ++ [mapped ++ " ASC"] }
    .ok (checkFieldForJoin st mapped)

def processOrderBy (st : BuilderState) (value : String) : Except ParseErr BuilderState :=
  (pySplit value ',').foldlM orderByOneField st

def orCondOneField (st : BuilderState) (cond : String) : BuilderState :=
  if strContainsChar cond '=' then
    let p := pySplitFirst cond '='
    let field := pyStrip p.1
    let v := pyStrip p.2
    let mapped := mapFieldName field
    let st := { st with orConditions := st.orConditions ++ [mapped ++ " = '" ++ v ++ "'"] }
    checkFieldForJoin st mapped
  else st

def processOrCondition (st : BuilderState) (value : String) : BuilderState :=
  (pySplit value ';').foldl orCondOneField st

/-- Builder-level `_process_filter`: append the translated fragment, then
run the join check on the resolved field name. -/
def processFilterStep (st : BuilderState) (key value : String) : Except ParseErr BuilderState :=
  match processFilterValue key value with
  | .error msg => .error (.buildError msg)
  | .ok frag =>
    let fieldName := mapFieldName key
    let st := { st with whereConditions := st.whereConditions ++ [frag] }
    .ok (checkFieldForJoin st fieldName)

/-! ## Python `int()` (used for `limit` and `offset`) -/

/-- Digit-run continuation: single underscores are allowed between (ASCII)
digits, as in Python's integer literal parsing. -/
def digitsLoop : Nat → List Char → Option Nat
  | acc, [] => some acc
  | acc, '_' :: rest =>
    match rest with
    | d :: rest₂ => if d.isDigit then digitsLoop (acc * 10 + (d.toNat - 48)) rest₂ else none
    | [] => none
  | acc, d :: rest => if d.isDigit then digitsLoop (acc * 10 + (d.toNat - 48)) rest else none

def parseDigits : List Char → Option Nat
  | [] => none
  | d :: rest => if d.isDigit then digitsLoop (d.toNat - 48) rest else none

/-- Python `int(s)` on ASCII input: surrounding whitespace, an optional
sign, then a non-empty digit run (underscores allowed between digits);
anything else raises `ValueError`. -/
def parseInt (s : String) : Option Int :=
  let cs := s.data.dropWhile Char.isWhitespace
  let cs := (cs.reverse.dropWhile Char.isWhitespace).reverse
  match cs with
  | '-' :: rest => (parseDigits rest).map (fun n => -(n : Int))
  | '+' :: rest => (parseDigits rest).map (fun n => (n : Int))
  | _ => (parseDigits cs).map (fun n => (n : Int))

/-! ## `_get_query_params`: parameter recovery from rendered predicates -/

def quoteChar : Char := Char.ofNat 39

/-- `re.match(r'([a-z]+\.[a-zA-Z_]+)\s*=\s*\'([^\']+)\'', cond)`:
the qualified field and the quoted value of an equality predicate. -/
def parseEqCond (cs : List Char) : Option (String × String) :=
  let pre := cs.takeWhile isLowerAZ
  if pre.isEmpty then none
  else
    match cs.drop pre.length with
    | '.' :: cs₂ =>
      let name := cs₂.takeWhile isAlphaUnd
      if name.isEmpty then none
      else
        match (cs₂.drop name.length).dropWhile Char.isWhitespace with
        | '=' :: cs₃ =>
          match cs₃.dropWhile Char.isWhitespace with
          | q :: cs₄ =>
            if q = quoteChar then
              let v := cs₄.takeWhile (· ≠ quoteChar)
              if v.isEmpty then none
              else if cs₄.get? v.length = some quoteChar then
                some (ofChars (pre ++ '.' :: name), ofChars v)
              else none
            else none
          | [] => none
        | _ => none
    | _ => none

/-- `re.match(r'([a-z]+\.[a-zA-Z_]+)\s+IN\s+\(([^\)]+)\)', cond)`:
the qualified field and the raw parenthesized list of an IN predicate. -/
def parseInCond (cs : List Char) : Option (String × String) :=
  let pre := cs.takeWhile isLowerAZ
  if pre.isEmpty then none
  else
    match cs.drop pre.length with
    | '.' :: cs₂ =>
      let name := cs₂.takeWhile isAlphaUnd
      if name.isEmpty then none
      else
        let cs₃ := cs₂.drop name.length
        let ws₁ := cs₃.takeWhile Char.isWhitespace
        if ws₁.isEmpty then none
        else if isPre "IN".data (cs₃.drop ws₁.length) then
          let cs₄ := (cs₃.drop ws₁.length).drop 2
          let ws₂ := cs₄.takeWhile Char.isWhitespace
          if ws₂.isEmpty then none
          else
            match cs₄.drop ws₂.length with
            | '(' :: cs₅ =>
              let content := cs₅.takeWhile (· ≠ ')')
              if content.isEmpty then none
              else if cs₅.get? content.length = some ')' then
                some (ofChars (pre ++ '.' :: name), ofChars content)
              else none
            | _ => none
        else none
    | _ => none

/-- The physical-field → parameter-name cases of `_get_query_params`. -/
def fieldToParam (field : String) : Option String :=
  [("tr.transactionIdTypeId", "type"),
   ("tr.announcedYear", "year"),
   ("tr.statusId", "status"),
   ("si.simpleIndustryId", "industry"),
   ("geo.countryId", "country")].lookup field

/-- Python `dict` assignment `params[k] = v`: replace in place, else append. -/
def dictInsert : List (String × String) → String → String → List (String × String)
  | [], k, v => [(k, v)]
  | (k₀, v₀) :: rest, k, v =>
    if k₀ = k then (k, v) :: rest else (k₀, v₀) :: dictInsert rest k v

/-- Python `s.strip(c)` for one character: remove every leading and
trailing occurrence. -/
def pyStripChar (s : String) (c : Char) : String :=
  ofChars (((s.data.dropWhile (· = c)).reverse.dropWhile (· = c)).reverse)

/-- `_get_query_params`: recover a parameter dict from the accumulated
predicate strings (both regexes are tried on every predicate). -/
def getQueryParams (st : BuilderState) : List (String × String) :=
  st.whereConditions.foldl (fun params cond =>
    let params :=
      match parseEqCond cond.data with
      | some fv =>
        match fieldToParam fv.1 with
        | some p => dictInsert params p fv.2
        | none => params
      | none => params
    match parseInCond cond.data with
    | some fv =>
      match fieldToParam fv.1 with
      | some p =>
        let values := (pySplit fv.2 ',').map (fun v => pyStripChar (pyStrip v) quoteChar)
        dictInsert params p (joinWith "," values)
      | none => params
    | none => params) []

/-! ## Join analysis (`_analyze_field_usage` and its three phases) -/

def hasParam (params : List (String × String)) (k : String) : Bool :=
  (params.lookup k).isSome

/-- `_process_special_parameters`. -/
def processSpecialParameters (st : BuilderState) (params : List (String × String)) : BuilderState :=
  let js := st.joins
  let js := if hasParam params "type" then addJoin js "transaction_type" else js
  let js := if hasParam params "status" then addJoin js "transaction_status" else js
  let js :=
    if hasParam params "company" || hasParam params "companyName" || hasParam params "companyId" then
      addJoin js "company"
    else js
  let js := if hasParam params "industry" then addJoin js "industry" else js
  let js := if hasParam params "country" then addJoin js "country" else js
  let js := if hasParam params "currency" then addJoin js "currency" else js
  let js :=
    if hasParam params "acquirerId" then
      addJoin (addJoin (addJoin js "transaction_company_rel") "comp_rel_type") "acquirer"
    else js
  let js := if hasParam params "targetId" then addJoin js "target" else js
  let js :=
    if hasParam params "sellerId" then
      addJoin (addJoin (addJoin js "transaction_company_rel") "comp_rel_type") "seller"
    else js
  let js :=
    if hasParam params "investorId" then
      addJoin (addJoin (addJoin js "transaction_company_rel") "comp_rel_type") "investor"
    else js
  let js :=
    if hasParam params "advisorId" then
      addJoin (addJoin js "transaction_to_advisor") "advisor_company"
    else js
  { st with joins := js }

/-- `_add_pattern_joins`. -/
def addPatternJoins (st : BuilderState) : BuilderState :=
  match st.detectedPattern with
  | none => st
  | some name =>
    match QUERY_PATTERNS.lookup name with
    | some info => { st with joins := info.recommendedJoins.foldl addJoin st.joins }
    | none =>
      if name = "ma_transactions" then
        { st with joins :=
            ["transaction_type", "target", "transaction_company_rel",
             "comp_rel_type", "acquirer"].foldl addJoin st.joins }
      else if name = "buybacks" then
        { st with joins := ["transaction_type", "company"].foldl addJoin st.joins }
      else if name = "private_placements" then
        { st with joins := ["transaction_type", "company"].foldl addJoin st.joins }
      else st

/-- `_add_field_based_joins`. -/
def addFieldBasedJoins (st : BuilderState) : BuilderState :=
  let allText := joinWith " "
    (st.selectFields ++ st.whereConditions ++ st.groupByFields ++ st.orderByClauses)
  let refs := findFieldRefs allText.data
  { st with joins :=
      refs.foldl (fun js pfx =>
        if pfx = st.baseAlias then js else addJoinForPrefix js st.baseAlias pfx) st.joins }

/-! ## The parse pipeline (`parse_request_params`) -/

/-- Python string truthiness of the stored pattern (`not self.detected_pattern`):
both `None` and the empty string count as absent. -/
def patternFalsy : Option String → Bool
  | none => true
  | some s => s = ""

/-- One iteration of the `for key, value in params.items()` dispatch. -/
def processParam (st : BuilderState) (kv : String × String) : Except ParseErr BuilderState :=
  let key := kv.1
  let value := kv.2
  if key = "select" then .ok (processSelect st value)
  else if key = "groupBy" then .ok (processGroupBy st value)
  else if key = "orderBy" then processOrderBy st value
  else if key = "limit" then
    match parseInt value with
    | some n => .ok { st with limitValue := some n }
    | none => .error (.valueError ("invalid literal for int() with base 10: " ++ value))
  else if key = "offset" then
    match parseInt value with
    | some n => .ok { st with offsetValue := some n }
    | none => .error (.valueError ("invalid literal for int() with base 10: " ++ value))
  else if key = "or" then .ok (processOrCondition st value)
  else if key = "pattern" then .ok { st with detectedPattern := some value }
  else if (ALL_JOIN_PATHS.lookup key).isSome || isFieldKey key then
    processFilterStep st key value
  else .ok st
where
  /-- `_get_field_keys`: the hard-coded key sets plus `FIELD_MAPPINGS` keys. -/
  isFieldKey (k : String) : Bool :=
    ["type", "year", "month", "day", "size", "status", "currency",
     "company", "companyName", "companyId", "industry", "country",
     "acquirerId", "targetId", "sellerId", "investorId", "advisorId",
     "relationType", "leadInvestor", "individualEquity", "percentAcquired"].contains k
    || (FIELD_MAPPINGS.lookup k).isSome

/-- The `if not self.detected_pattern: self._detect_query_pattern()` step:
detection runs only when the stored pattern is falsy, and a failed
detection leaves the stored pattern unchanged. -/
def maybeDetectPattern (st : BuilderState) : BuilderState :=
  if patternFalsy st.detectedPattern then
    match detectQueryPattern (getQueryParams st) with
    | some p => { st with detectedPattern := some p }
    | none => st
  else st

/-- `if not self.select_fields: self.select_fields = ["tr.*"]`. -/
def applyDefaultSelect (st : BuilderState) : BuilderState :=
  if st.selectFields.isEmpty then { st with selectFields := ["tr.*"] } else st

/-- `_analyze_field_usage`: special parameters, pattern joins, then
field-based joins. -/
def analyzeFieldUsage (st : BuilderState) : BuilderState :=
  addFieldBasedJoins (addPatternJoins (processSpecialParameters st (getQueryParams st)))

/-- `if self.or_conditions: ...` — fold the OR group into one
parenthesized predicate. -/
def applyOrFold (st : BuilderState) : BuilderState :=
  if st.orConditions.isEmpty then st
  else { st with whereConditions :=
          st.whereConditions ++ ["(" ++ joinWith " OR " st.orConditions ++ ")"] }

/-- The final `_add_default_status_filter` call. -/
def applyDefaultStatus (st : BuilderState) : BuilderState :=
  { st with whereConditions := addDefaultStatusFilter st.whereConditions }

/-- The tail of `parse_request_params` after the parameter loop: default
select list, pattern detection, join analysis, OR folding, default status
filter. None of these steps can raise. -/
def parseFinish (st : BuilderState) : BuilderState :=
  applyDefaultStatus (applyOrFold (analyzeFieldUsage (maybeDetectPattern (applyDefaultSelect st))))

/-- `parse_request_params`: process each parameter in order, finish, and
turn caught exceptions into `QueryBuildError` details exactly as the
`except` clauses do. -/
def parseRequestParams (schema : String) (params : List (String × String)) :
    Except String BuilderState :=
  match params.foldlM processParam (initBuilder schema) with
  | .ok st => .ok (parseFinish st)
  | .error (.valueError msg) => .error ("Invalid numeric value: " ++ msg)
  | .error (.buildError msg) => .error ("Error parsing query parameters: " ++ msg)

/-! ## Join ordering (`_order_joins`) and rendering (`build_query`)

`build_query` first tries to import `app.utils.query_handlers`; that module
does not exist in this repository, so the `ImportError` branch always falls
through to the standard rendering modelled here. -/

/-- A join is ready when none of its prerequisites (under the dependency
map `req`) is still unordered; a prerequisite outside the remaining set
counts as satisfied. -/
def isReadyJoin (req : String → List String) (rem : List String) (k : String) : Bool :=
  (req k).all (fun d => !rem.contains d)

/-- The `while remaining_joins` loop of `_order_joins`, parameterized by
the `deps_map` the method builds from the active joins' stored info. The
Bool records whether the cycle-breaking fallback (logged as a warning)
ever fired. Each round removes at least one join, so `rem.length` fuel
suffices. -/
def orderJoinsFuel (req : String → List String) : Nat → List String → List String × Bool
  | 0, _ => ([], false)
  | fuel + 1, rem =>
    if rem.isEmpty then ([], false)
    else
      let ready := rem.filter (isReadyJoin req rem)
      let cyc := ready.isEmpty
      let emit := if cyc then [rem.headD ""] else ready
      let next := orderJoinsFuel req fuel (emit.foldl (fun r j => r.erase j) rem)
      (emit ++ next.1, cyc || next.2)

/-- `_order_joins` with a caller-supplied dependency map. -/
def orderJoinsCore (req : String → List String) (js : List String) : List String × Bool :=
  orderJoinsFuel req js.length js

/-- `_order_joins` on the active join keys: for every active join the
stored info is its catalog entry, so `deps_map` is exactly `requiresOf`. -/
def orderJoins (js : List String) : List String × Bool := orderJoinsCore requiresOf js

/-- The SQL text of one active join (its stored info is always the catalog
entry found at activation time). -/
def renderJoin (schema : String) (k : String) : String :=
  match lookupJoin k with
  | some info => "JOIN " ++ schema ++ "." ++ info.table ++ " " ++ info.joinAlias ++ " ON " ++ info.condition
  | none => ""

def selectClause (st : BuilderState) : String :=
  "SELECT " ++ joinWith ", " st.selectFields

def fromClause (st : BuilderState) : String :=
  "FROM " ++ st.schema ++ "." ++ st.baseTable ++ " " ++ st.baseAlias

def joinClause (st : BuilderState) : String :=
  joinWith " " ((orderJoins st.joins).1.map (renderJoin st.schema))

def whereClause (st : BuilderState) : String :=
  if st.whereConditions.isEmpty then ""
  else "WHERE " ++ joinWith " AND " st.whereConditions

def groupByClause (st : BuilderState) : String :=
  if st.groupByFields.isEmpty then ""
  else "GROUP BY " ++ joinWith ", " st.groupByFields

def orderByClause (st : BuilderState) : String :=
  if st.orderByClauses.isEmpty then ""
  else "ORDER BY " ++ joinWith ", " st.orderByClauses

/-- `LIMIT`/`OFFSET` rendering: an OFFSET fragment exists only inside the
LIMIT branch. -/
def limitClause (st : BuilderState) : String :=
  match st.limitValue with
  | none => ""
  | some n =>
    "LIMIT " ++ toString n ++
      (match st.offsetValue with
       | none => ""
       | some m => " OFFSET " ++ toString m)

/-- The `query_parts` list: clauses that render to the empty string are
omitted (Python string truthiness). -/
def buildQueryParts (st : BuilderState) : List String :=
  [selectClause st, fromClause st]
  ++ (if joinClause st = "" then [] else [joinClause st])
  ++ (if whereClause st = "" then [] else [whereClause st])
  ++ (if groupByClause st = "" then [] else [groupByClause st])
  ++ (if orderByClause st = "" then [] else [orderByClause st])
  ++ (if limitClause st = "" then [] else [limitClause st])

/-- `build_query` (standard path). -/
def buildQuery (st : BuilderState) : String :=
  joinWith " " (buildQueryParts st)

/-! ## Helper lemmas -/

theorem lookup_isSome_mem {β : Type} (l : List (String × β)) (k : String)
    (h : (l.lookup k).isSome = true) : k ∈ l.map Prod.fst := by
  induction l with
  | nil => simp [List.lookup] at h
  | cons p rest ih =>
    by_cases hk : k = p.1
    · simp [hk]
    · right
      apply ih
      have hbeq : (k == p.1) = false := by simp [hk]
      simpa [List.lookup, hbeq] using h

theorem isCatalogJoin_mem (j : String) (h : isCatalogJoin j = true) : j ∈ allCatalogKeys := by
  unfold isCatalogJoin lookupJoin at h
  cases hall : ALL_JOIN_PATHS.lookup j with
  | some v =>
    exact List.mem_append_left _ (lookup_isSome_mem _ _ (by simp [hall]))
  | none =>
    rw [hall] at h
    exact List.mem_append_right _ (lookup_isSome_mem _ _ h)

theorem addJoinFuel_mem (fuel : Nat) (js : List String) (j : String) (h : j ∈ js) :
    addJoinFuel fuel js j = js := by
  cases fuel with
  | zero => rfl
  | succ fuel =>
    have hc : js.contains j = true := List.elem_eq_true_of_mem h
    simp [addJoinFuel, hc]
    exact fun hn => absurd h hn

theorem foldl_erase_eq_diff (ks rem : List String) :
    ks.foldl (fun r j => r.erase j) rem = rem.diff ks := by
  rw [List.diff_eq_foldl]

theorem append_diff_perm : ∀ (ks rem : List String), ks.Subperm rem →
    (ks ++ rem.diff ks).Perm rem := by
  intro ks
  induction ks with
  | nil => intro rem _; simp
  | cons k ks ih =>
    intro rem h
    have hk : k ∈ rem := h.subset (List.mem_cons_self k ks)
    have hks : ks.Subperm (rem.erase k) := by
      have h₂ : (k :: ks).Subperm (k :: rem.erase k) :=
        h.trans (List.perm_cons_erase hk).subperm
      exact (List.subperm_cons k).mp h₂
    have key : (k :: ks) ++ rem.diff (k :: ks) = k :: (ks ++ (rem.erase k).diff ks) := by
      rw [List.diff_cons]; rfl
    rw [key]
    exact ((ih _ hks).cons k).trans (List.perm_cons_erase hk).symm

theorem diff_length_lt (rem emit : List String) (x : String)
    (hx : x ∈ rem) (hhead : emit.head? = some x) :
    (rem.diff emit).length < rem.length := by
  cases emit with
  | nil => simp at hhead
  | cons e es =>
    have hex : e = x := by simpa using hhead
    subst hex
    rw [List.diff_cons]
    have h1 : ((rem.erase e).diff es).length ≤ (rem.erase e).length :=
      (List.diff_sublist _ _).length_le
    have h2 : (rem.erase e).length < rem.length := by
      rw [List.length_erase_of_mem hx]
      exact Nat.sub_lt (List.length_pos.mpr (List.ne_nil_of_mem hx)) Nat.one_pos
    exact Nat.lt_of_le_of_lt h1 h2

theorem emit_head_mem (req : String → List String) (rem : List String) (h : rem ≠ []) :
    ∃ x, (if (rem.filter (isReadyJoin req rem)).isEmpty then [rem.headD ""]
          else rem.filter (isReadyJoin req rem)).head? = some x ∧ x ∈ rem := by
  by_cases hre : (rem.filter (isReadyJoin req rem)).isEmpty
  · rw [if_pos hre]
    cases rem with
    | nil => exact absurd rfl h
    | cons a t => exact ⟨a, rfl, List.mem_cons_self a t⟩
  · rw [if_neg hre]
    cases hf : rem.filter (isReadyJoin req rem) with
    | nil => rw [hf] at hre; simp at hre
    | cons e es =>
      refine ⟨e, rfl, ?_⟩
      have he : e ∈ rem.filter (isReadyJoin req rem) := by
        rw [hf]; exact List.mem_cons_self e es
      exact List.mem_of_mem_filter he

theorem emit_subperm (req : String → List String) (rem : List String) (h : rem ≠ []) :
    (if (rem.filter (isReadyJoin req rem)).isEmpty then [rem.headD ""]
     else rem.filter (isReadyJoin req rem)).Subperm rem := by
  by_cases hre : (rem.filter (isReadyJoin req rem)).isEmpty
  · rw [if_pos hre]
    cases rem with
    | nil => exact absurd rfl h
    | cons a t =>
      exact (List.singleton_sublist.mpr (List.mem_cons_self a t)).subperm
  · rw [if_neg hre]
    exact (List.filter_sublist _).subperm

theorem orderJoinsFuel_step (req : String → List String) (fuel : Nat) (rem : List String)
    (h : rem ≠ []) :
    orderJoinsFuel req (fuel + 1) rem =
      ((if (rem.filter (isReadyJoin req rem)).isEmpty then [rem.headD ""]
        else rem.filter (isReadyJoin req rem)) ++
        (orderJoinsFuel req fuel
          (rem.diff (if (rem.filter (isReadyJoin req rem)).isEmpty then [rem.headD ""]
                     else rem.filter (isReadyJoin req rem)))).1,
       (rem.filter (isReadyJoin req rem)).isEmpty ||
        (orderJoinsFuel req fuel
          (rem.diff (if (rem.filter (isReadyJoin req rem)).isEmpty then [rem.headD ""]
                     else rem.filter (isReadyJoin req rem)))).2) := by
  simp only [orderJoinsFuel]
  rw [if_neg (by simpa using h)]
  rw [foldl_erase_eq_diff]

theorem orderJoinsFuel_perm (req : String → List String) :
    ∀ fuel rem, rem.length ≤ fuel → (orderJoinsFuel req fuel rem).1.Perm rem := by
  intro fuel
  induction fuel with
  | zero =>
    intro rem h
    have : rem = [] := List.length_eq_zero.mp (Nat.le_zero.mp h)
    subst this
    simp [orderJoinsFuel]
  | succ fuel ih =>
    intro rem h
    by_cases hnil : rem = []
    · subst hnil; simp [orderJoinsFuel]
    · rw [orderJoinsFuel_step req fuel rem hnil]
      obtain ⟨x, hx1, hx2⟩ := emit_head_mem req rem hnil
      have hlen : (rem.diff (if (rem.filter (isReadyJoin req rem)).isEmpty then [rem.headD ""]
                   else rem.filter (isReadyJoin req rem))).length ≤ fuel :=
        Nat.lt_succ_iff.mp (Nat.lt_of_lt_of_le (diff_length_lt rem _ x hx2 hx1) h)
      exact (List.Perm.append_left _ (ih _ hlen)).trans
        (append_diff_perm _ rem (emit_subperm req rem hnil))

theorem not_mem_of_ready (req : String → List String) (rem : List String) (a d : String)
    (ha : isReadyJoin req rem a = true) (hd : d ∈ req a) : d ∉ rem := by
  intro hmem
  have h1 := List.all_eq_true.mp ha d hd
  simp only [Bool.not_eq_true'] at h1
  have h2 : List.elem d rem = true := List.elem_eq_true_of_mem hmem
  simp only [List.contains] at h1
  rw [h2] at h1
  cases h1

theorem orderJoinsFuel_topo (req : String → List String) :
    ∀ fuel rem, rem.length ≤ fuel → (orderJoinsFuel req fuel rem).2 = false →
    ∀ pre a suf, (orderJoinsFuel req fuel rem).1 = pre ++ a :: suf →
    ∀ d, d ∈ req a → d ∈ rem → d ∈ pre := by
  intro fuel
  induction fuel with
  | zero =>
    intro rem h hflag pre a suf hout
    simp [orderJoinsFuel] at hout
  | succ fuel ih =>
    intro rem h hflag pre a suf hout d hd hdrem
    by_cases hnil : rem = []
    · subst hnil
      simp [orderJoinsFuel] at hout
    · rw [orderJoinsFuel_step req fuel rem hnil] at hflag hout
      simp only at hflag hout
      obtain ⟨hready, hnext⟩ := Bool.or_eq_false_iff.mp hflag
      rw [if_neg (by simp [hready])] at hout
      obtain ⟨x, hx1, hx2⟩ := emit_head_mem req rem hnil
      rw [if_neg (by simp [hready])] at hx1
      have hlen : (rem.diff (rem.filter (isReadyJoin req rem))).length ≤ fuel := by
        have := diff_length_lt rem (rem.filter (isReadyJoin req rem)) x hx2 hx1
        omega
      rw [if_neg (by simp [hready])] at hnext
      rcases List.append_eq_append_iff.mp hout with ⟨mid, hpre, hrest⟩ | ⟨mid, hR, hmid⟩
      · by_cases hdR : d ∈ rem.filter (isReadyJoin req rem)
        · rw [hpre]; exact List.mem_append_left _ hdR
        · have hdiff : d ∈ rem.diff (rem.filter (isReadyJoin req rem)) :=
            List.mem_diff_of_mem hdrem hdR
          have := ih _ hlen hnext mid a suf hrest d hd hdiff
          rw [hpre]; exact List.mem_append_right _ this
      · cases mid with
        | nil =>
          simp at hmid
          have hrest : (orderJoinsFuel req fuel
              (rem.diff (rem.filter (isReadyJoin req rem)))).1 = [] ++ a :: suf := by
            simp [← hmid]
          by_cases hdR : d ∈ rem.filter (isReadyJoin req rem)
          · rw [List.append_nil] at hR; rw [← hR]; exact hdR
          · have hdiff : d ∈ rem.diff (rem.filter (isReadyJoin req rem)) :=
              List.mem_diff_of_mem hdrem hdR
            have := ih _ hlen hnext [] a suf hrest d hd hdiff
            simp at this
        | cons a' mid' =>
          have haa : a = a' := by
            have := congrArg (List.head? ·) hmid
            simpa using this
          rw [← haa] at hR
          have haR : a ∈ rem.filter (isReadyJoin req rem) := by
            rw [hR]
            exact List.mem_append_right _ (List.mem_cons_self _ _)
          have hready' : isReadyJoin req rem a = true := List.of_mem_filter haR
          exact absurd hdrem (not_mem_of_ready req rem a d hready' hd)

theorem orderJoins_tiebreak (req : String → List String) (js : List String) (a b : String)
    (hsub : [a, b].Sublist js) (ha : isReadyJoin req js a = true)
    (hb : isReadyJoin req js b = true) :
    [a, b].Sublist (orderJoinsCore req js).1 := by
  have hnil : js ≠ [] := by
    intro h
    subst h
    exact absurd (List.sublist_nil.mp hsub) (by simp)
  have hfilter : List.filter (isReadyJoin req js) [a, b] = [a, b] := by
    simp [List.filter, ha, hb]
  have hsubR : [a, b].Sublist (js.filter (isReadyJoin req js)) := by
    have := hsub.filter (isReadyJoin req js)
    rwa [hfilter] at this
  have hre : ¬(js.filter (isReadyJoin req js)).isEmpty = true := by
    intro hempty
    rw [List.isEmpty_iff] at hempty
    rw [hempty] at hsubR
    exact absurd (List.sublist_nil.mp hsubR) (by simp)
  cases hl : js.length with
  | zero => exact absurd (List.length_eq_zero.mp hl) hnil
  | succ n =>
    show ([a, b]).Sublist (orderJoinsFuel req js.length js).1
    rw [hl, orderJoinsFuel_step req n js hnil]
    simp only
    rw [if_neg hre]
    exact hsubR.trans (List.sublist_append_left _ _)

theorem orderJoins_cycle_fallback (req : String → List String) (js : List String)
    (h : js ≠ []) (hready : js.filter (isReadyJoin req js) = []) :
    ∃ rest, (orderJoinsCore req js).1 = js.headD "" :: rest ∧
      (orderJoinsCore req js).2 = true := by
  cases js with
  | nil => exact absurd rfl h
  | cons j t =>
    refine ⟨(orderJoinsFuel req t.length ((j :: t).diff [(j :: t).headD ""])).1, ?_, ?_⟩
    · simp only [orderJoinsCore, List.length_cons, orderJoinsFuel]
      rw [if_neg (by simp)]
      simp [hready, foldl_erase_eq_diff]
    · simp only [orderJoinsCore, List.length_cons, orderJoinsFuel]
      rw [if_neg (by simp)]
      simp [hready]

theorem isPre_iff : ∀ (pat s : List Char), isPre pat s = true ↔ pat <+: s := by
  intro pat
  induction pat with
  | nil => intro s; simp [isPre]
  | cons a as ih =>
    intro s
    cases s with
    | nil => simp [isPre]
    | cons b bs =>
      rw [isPre, List.cons_prefix_cons]
      rw [Bool.and_eq_true, beq_iff_eq, ih]

theorem processFilterLoop_eq_find (field value : String) : ∀ (ops : List (String × String)),
    processFilterLoop field value ops =
      (ops.find? (fun p => strStartsWith value (p.1 ++ ":"))).map
        (fun p => filterOpResult field p.1 p.2 (strDrop value (p.1.length + 1))) := by
  intro ops
  induction ops with
  | nil => rfl
  | cons p rest ih =>
    by_cases h : strStartsWith value (p.1 ++ ":") = true
    · rw [processFilterLoop, if_pos h,
        show List.find? (fun q => strStartsWith value (q.1 ++ ":")) (p :: rest) = some p from
          List.find?_cons_of_pos _ h]
      rfl
    · rw [processFilterLoop, if_neg h,
        show List.find? (fun q => strStartsWith value (q.1 ++ ":")) (p :: rest) =
            List.find? (fun q => strStartsWith value (q.1 ++ ":")) rest from
          List.find?_cons_of_neg _ (by simpa using h), ih]

/-! ## Verified claims -/

set_option maxHeartbeats 2000000 in
/-- C1: For every join name `j` of the static join catalogs (all of whose
prerequisite chains are acyclic), activating `j` via
`_add_join_with_dependencies` on the empty join list produces a
duplicate-free list containing exactly the transitive prerequisites of `j`
(including `j` itself); and activating a join that is already active leaves
any join list unchanged (idempotent no-op). -/
theorem join_activation_closure :
    (∀ j, isCatalogJoin j = true →
      (addJoin [] j).Nodup ∧
      (∀ k ∈ addJoin [] j, k ∈ transPrereqs j) ∧
      (∀ k ∈ transPrereqs j, k ∈ addJoin [] j)) ∧
    (∀ (js : List String) (j : String), j ∈ js → addJoin js j = js) := by
  constructor
  · intro j hj
    have hm : j ∈ allCatalogKeys := isCatalogJoin_mem j hj
    have H : ∀ x ∈ allCatalogKeys,
        (addJoin [] x).Nodup ∧
        (∀ k ∈ addJoin [] x, k ∈ transPrereqs x) ∧
        (∀ k ∈ transPrereqs x, k ∈ addJoin [] x) := by decide
    exact H j hm
  · intro js j h
    exact addJoinFuel_mem joinFuel js j h

/-- Witness for C1 at the catalog join `industry` (prerequisite `company`)
and at re-activating an already-active `company`. -/
theorem join_activation_closure_witness :
    (addJoin [] "industry").Nodup ∧
    "company" ∈ addJoin [] "industry" ∧
    addJoin ["company"] "company" = ["company"] := by
  refine ⟨(join_activation_closure.1 "industry" (by decide)).1, ?_, ?_⟩
  · exact (join_activation_closure.1 "industry" (by decide)).2.2 "company" (by decide)
  · exact join_activation_closure.2 ["company"] "company" (by decide)

/-- C2: `_order_joins` (with the dependency map `req` the method builds
from the active joins) returns a permutation of the active join list; when
the cycle fallback never fires the output is a valid topological order of
the active-join subgraph (a prerequisite outside the active set counts as
satisfied); joins that are simultaneously ready keep their original
insertion order; and when no remaining join is ready, the first remaining
join in insertion order is emitted anyway and processing continues to
completion. Determinism is definitional here: the model is a pure
function, so re-running on the same activation sequence yields identical
output. -/
theorem order_joins_resolution_spec (req : String → List String) (js : List String) :
    ((orderJoinsCore req js).1.Perm js)
    ∧ ((orderJoinsCore req js).2 = false →
        ∀ pre a suf, (orderJoinsCore req js).1 = pre ++ a :: suf →
          ∀ d ∈ req a, d ∈ js → d ∈ pre)
    ∧ (∀ a b, [a, b].Sublist js →
        isReadyJoin req js a = true → isReadyJoin req js b = true →
        [a, b].Sublist (orderJoinsCore req js).1)
    ∧ (js ≠ [] → js.filter (isReadyJoin req js) = [] →
        ∃ rest, (orderJoinsCore req js).1 = js.headD "" :: rest ∧
          (orderJoinsCore req js).2 = true) := by
  refine ⟨orderJoinsFuel_perm req js.length js le_rfl, ?_, ?_, ?_⟩
  · intro hf pre a suf hout d hd hdjs
    exact orderJoinsFuel_topo req js.length js le_rfl hf pre a suf hout d hd hdjs
  · intro a b hs ha hb
    exact orderJoins_tiebreak req js a b hs ha hb
  · intro h hr
    exact orderJoins_cycle_fallback req js h hr

/-- Witness for C2: the catalog dependency map on `["industry", "company"]`
(permutation and topological order: `company` must precede `industry`),
two ready joins keeping insertion order, and a self-loop dependency map
triggering the cycle fallback. -/
theorem order_joins_resolution_spec_witness :
    (orderJoinsCore requiresOf ["industry", "company"]).1.Perm ["industry", "company"]
    ∧ "company" ∈ (["company"] : List String)
    ∧ [("company" : String), "currency"].Sublist (orderJoinsCore requiresOf ["company", "currency"]).1
    ∧ (∃ rest, (orderJoinsCore (fun _ => ["loop"]) ["loop"]).1 = "loop" :: rest ∧
        (orderJoinsCore (fun _ => ["loop"]) ["loop"]).2 = true) := by
  refine ⟨(order_joins_resolution_spec requiresOf ["industry", "company"]).1, ?_, ?_, ?_⟩
  · exact (order_joins_resolution_spec requiresOf ["industry", "company"]).2.1
      (by decide) ["company"] "industry" [] (by decide) "company" (by decide) (by decide)
  · exact (order_joins_resolution_spec requiresOf ["company", "currency"]).2.2.1
      "company" "currency" (by decide) (by decide) (by decide)
  · exact (order_joins_resolution_spec (fun _ => ["loop"]) ["loop"]).2.2.2
      (by decide) (by decide)

/-- C3 (counterexample): the claim says a `between` filter raises unless
the remainder has exactly one separator with two non-empty bounds; the code
only requires *some* separator and splits at the first one, so
`between:5,10,15` (two separators) and `between:,10` (empty lower bound)
both succeed instead of raising. -/
theorem between_translation_counterexample :
    processFilterValue "year" "between:5,10,15" =
      Except.ok "tr.announcedYear BETWEEN '5' AND '10,15'" ∧
    processFilterValue "year" "between:,10" =
      Except.ok "tr.announcedYear BETWEEN '' AND '10'" := ⟨rfl, rfl⟩

/-- C3 (amended): for a `between:` value, processing raises a BuildError
iff the remainder contains no separator at all; on success the remainder is
split at its first separator into two trimmed (possibly empty, possibly
separator-containing) bounds, emitted as `<field> BETWEEN '<lo>' AND '<hi>'`. -/
theorem between_translation (key value : String) (h : strStartsWith value "between:" = true) :
    (strContainsChar (strDrop value 8) ',' = false →
      processFilterValue key value =
        Except.error ("Invalid BETWEEN format: " ++ strDrop value 8)) ∧
    (strContainsChar (strDrop value 8) ',' = true →
      processFilterValue key value = Except.ok (mapFieldName key ++ " BETWEEN '" ++
        pyStrip (pySplitFirst (strDrop value 8) ',').1 ++ "' AND '" ++
        pyStrip (pySplitFirst (strDrop value 8) ',').2 ++ "'")) := by
  obtain ⟨rest, hrest⟩ : ∃ t, "between:".data ++ t = value.data := (isPre_iff _ _).mp h
  have hval : value = ofChars ("between:".data ++ rest) := by
    apply String.ext
    exact hrest.symm
  subst hval
  have hred : processFilterValue key (ofChars ("between:".data ++ rest)) =
      filterOpResult (mapFieldName key) "between" "BETWEEN \x7b\x7d AND \x7b\x7d"
        (ofChars rest) := rfl
  constructor
  · intro hc
    have hc' : strContainsChar (ofChars rest) ',' = false := hc
    rw [hred]
    unfold filterOpResult
    rw [if_pos rfl, if_neg (by simp [hc'])]
    exact rfl
  · intro hc
    have hc' : strContainsChar (ofChars rest) ',' = true := hc
    rw [hred]
    unfold filterOpResult
    rw [if_pos rfl, if_pos (by simp [hc'])]
    exact rfl

/-- Witness for C3 (amended) at the spec's own examples:
`between:5,10` renders a BETWEEN fragment, `between:5` raises. -/
theorem between_translation_witness :
    processFilterValue "year" "between:5,10" =
      Except.ok "tr.announcedYear BETWEEN '5' AND '10'" ∧
    processFilterValue "year" "between:5" =
      Except.error "Invalid BETWEEN format: 5" := by
  constructor
  · exact ((between_translation "year" "between:5,10" (by decide)).2 (by decide)).trans
      (by exact rfl)
  · exact ((between_translation "year" "between:5" (by decide)).1 (by decide)).trans
      (by exact rfl)

/-- C4: filter translation tries the operator prefixes in the fixed
priority order of `FILTER_OPERATORS` (gte, lte, gt, lt, ne, like, ilike,
null, notnull, between) and the first match determines the predicate
(`firstMatchingOp` is a first-match scan of that list in order);
null/notnull ignore the remainder entirely; with no matching prefix a
comma-carrying value becomes an IN predicate over exactly the comma-split,
trimmed tokens in original order, and any other value an equality
predicate on the resolved field. -/
theorem filter_operator_dispatch (key value : String) :
    (∀ op sqlOp, firstMatchingOp value = some (op, sqlOp) →
        processFilterValue key value =
          filterOpResult (mapFieldName key) op sqlOp (strDrop value (op.length + 1)))
    ∧ (∀ f rem, filterOpResult f "null" "IS NULL" rem = Except.ok (f ++ " IS NULL"))
    ∧ (∀ f rem, filterOpResult f "notnull" "IS NOT NULL" rem = Except.ok (f ++ " IS NOT NULL"))
    ∧ (firstMatchingOp value = none → strContainsChar value ',' = true →
        processFilterValue key value = Except.ok (mapFieldName key ++ " IN (" ++
          joinWith ", " ((pySplit value ',').map (fun v => "'" ++ pyStrip v ++ "'")) ++ ")"))
    ∧ (firstMatchingOp value = none → strContainsChar value ',' = false →
        processFilterValue key value = Except.ok (mapFieldName key ++ " = '" ++ value ++ "'")) := by
  refine ⟨?_, fun f rem => rfl, fun f rem => rfl, ?_, ?_⟩
  · intro op sqlOp hf
    unfold firstMatchingOp at hf
    simp only [processFilterValue]
    rw [processFilterLoop_eq_find, hf]
    rfl
  · intro hf hc
    unfold firstMatchingOp at hf
    simp only [processFilterValue]
    rw [processFilterLoop_eq_find, hf]
    simp [hc]
  · intro hf hc
    unfold firstMatchingOp at hf
    simp only [processFilterValue]
    rw [processFilterLoop_eq_find, hf]
    simp [hc]

/-- Witness for C4: an operator match, a null match ignoring the
remainder, the three-token IN example, and a plain equality. -/
theorem filter_operator_dispatch_witness :
    processFilterValue "year" "gte:2020" = Except.ok "tr.announcedYear >= '2020'" ∧
    processFilterValue "size" "null:x" = Except.ok "tr.transactionSize IS NULL" ∧
    processFilterValue "industry" "a, b ,c" = Except.ok "si.simpleIndustryId IN ('a', 'b', 'c')" ∧
    processFilterValue "year" "2020" = Except.ok "tr.announcedYear = '2020'" := by
  refine ⟨?_, ?_, ?_, ?_⟩
  · exact ((filter_operator_dispatch "year" "gte:2020").1 "gte" ">=" (by decide)).trans
      (by exact rfl)
  · exact (((filter_operator_dispatch "size" "null:x").1 "null" "IS NULL" (by decide)).trans
      ((filter_operator_dispatch "size" "null:x").2.1 (mapFieldName "size")
        (strDrop "null:x" 5))).trans (by exact rfl)
  · exact ((filter_operator_dispatch "industry" "a, b ,c").2.2.2.1 (by decide) (by decide)).trans
      (by exact rfl)
  · exact ((filter_operator_dispatch "year" "2020").2.2.2.2 (by decide) (by decide)).trans
      (by exact rfl)

/-- C5: at the end of parameter processing, when no accumulated predicate
mentions the status column, exactly one default status-membership predicate
`tr.statusId IN (1, 2, 3, 8, 9, 10)` is appended; when some predicate
already constrains the status column, nothing is added. -/
theorem default_status_filter_spec (conds : List String) :
    (conds.any (fun c => containsSub c "tr.statusId") = false →
      addDefaultStatusFilter conds = conds ++ ["tr.statusId IN (1, 2, 3, 8, 9, 10)"] ∧
      (addDefaultStatusFilter conds).countP (fun c => containsSub c "tr.statusId") = 1) ∧
    (conds.any (fun c => containsSub c "tr.statusId") = true →
      addDefaultStatusFilter conds = conds) := by
  constructor
  · intro h
    have hd : addDefaultStatusFilter conds = conds ++ [defaultStatusCondition] := by
      unfold addDefaultStatusFilter
      rw [if_neg (by simp [h])]
    have hlit : defaultStatusCondition = "tr.statusId IN (1, 2, 3, 8, 9, 10)" := rfl
    refine ⟨by rw [hd, hlit], ?_⟩
    rw [hd, List.countP_append]
    have h0 : conds.countP (fun c => containsSub c "tr.statusId") = 0 := by
      rw [List.countP_eq_zero]
      intro a ha hcontra
      have htrue : (conds.any fun c => containsSub c "tr.statusId") = true :=
        List.any_eq_true.mpr ⟨a, ha, hcontra⟩
      rw [h] at htrue
      cases htrue
    have h1 : List.countP (fun c => containsSub c "tr.statusId") [defaultStatusCondition] = 1 := by
      decide
    omega
  · intro h
    unfold addDefaultStatusFilter
    rw [if_pos (by simp [h])]

/-- Witness for C5: an empty predicate list receives exactly the default
status predicate; a list already mentioning `tr.statusId` is unchanged. -/
theorem default_status_filter_spec_witness :
    addDefaultStatusFilter [] = ["tr.statusId IN (1, 2, 3, 8, 9, 10)"] ∧
    (addDefaultStatusFilter []).countP (fun c => containsSub c "tr.statusId") = 1 ∧
    addDefaultStatusFilter ["tr.statusId = '4'"] = ["tr.statusId = '4'"] :=
  ⟨((default_status_filter_spec []).1 (by decide)).1,
   ((default_status_filter_spec []).1 (by decide)).2,
   (default_status_filter_spec ["tr.statusId = '4'"]).2 (by decide)⟩

instance {ε α : Type} [DecidableEq ε] [DecidableEq α] : DecidableEq (Except ε α) := fun x y =>
  match x, y with
  | .ok a, .ok b =>
    if h : a = b then isTrue (by rw [h]) else isFalse (by intro hc; cases hc; exact h rfl)
  | .error a, .error b =>
    if h : a = b then isTrue (by rw [h]) else isFalse (by intro hc; cases hc; exact h rfl)
  | .ok _, .error _ => isFalse (by intro hc; cases hc)
  | .error _, .ok _ => isFalse (by intro hc; cases hc)

theorem find?_first {α : Type} (pred : α → Bool) : ∀ (pre : List α) (x : α) (post : List α),
    (∀ q ∈ pre, pred q = false) → pred x = true →
    (pre ++ x :: post).find? pred = some x := by
  intro pre
  induction pre with
  | nil => intro x post _ hx; exact List.find?_cons_of_pos _ hx
  | cons a l ih =>
    intro x post hpre hx
    rw [List.cons_append, List.find?_cons_of_neg _ (by simp [hpre a (by simp)])]
    exact ih x post (fun q hq => hpre q (by simp [hq])) hx

set_option maxHeartbeats 1000000 in
/-- C6: pattern detection (1) runs only when no (non-empty) explicit
pattern is stored; (2) a catalog pattern matches iff every declared
condition key is present and its value matches exactly or the condition is
the wildcard `*`; (3) the first matching pattern in catalog order wins;
and (4) concretely, with the single filter `type = "2"` and no explicit
pattern, the detected pattern is `ma_transactions` and every join it
recommends ends up in the final active-join set. -/
theorem pattern_detection_spec :
    (∀ st p, st.detectedPattern = some p → p ≠ "" → maybeDetectPattern st = st)
    ∧ (∀ (params conds : List (String × String)), patternMatches params conds = true ↔
        ∀ c ∈ conds, ∃ v, params.lookup c.1 = some v ∧ (c.2 = "*" ∨ v = c.2))
    ∧ (∀ params pre p post, QUERY_PATTERNS = pre ++ p :: post →
        patternMatches params p.2.conditions = true →
        (∀ q ∈ pre, patternMatches params q.2.conditions = false) →
        detectQueryPattern params = some p.1)
    ∧ ((parseRequestParams "S" [("type", "2")]).map (fun st =>
        (st.detectedPattern,
         (((QUERY_PATTERNS.lookup "ma_transactions").map (·.recommendedJoins)).getD []).all
           (st.joins.contains ·))) = .ok (some "ma_transactions", true)) := by
  refine ⟨?_, ?_, ?_, by decide⟩
  · intro st p h hp
    unfold maybeDetectPattern
    rw [h]
    rw [if_neg (by simp [patternFalsy, hp])]
  · intro params conds
    rw [patternMatches, List.all_eq_true]
    constructor
    · intro h c hc
      have hh := h c hc
      cases hlk : params.lookup c.1 with
      | none => rw [hlk] at hh; cases hh
      | some v =>
        rw [hlk] at hh
        refine ⟨v, rfl, ?_⟩
        simpa using hh
    · intro h c hc
      obtain ⟨v, hlk, hv⟩ := h c hc
      simp only [hlk]
      rcases hv with hv | hv <;> simp [hv]
  · intro params pre p post hcat hp hpre
    have hfind : QUERY_PATTERNS.find? (fun q => patternMatches params q.2.conditions) = some p := by
      rw [hcat]
      exact find?_first _ pre p post hpre hp
    unfold detectQueryPattern detectFromCatalog
    rw [hfind]
    rfl

/-- Witness for C6: an explicit (non-empty) pattern suppresses detection;
the matching semantics at `type = "2"`; and first-match at the head of the
catalog with `type = "1"`. -/
theorem pattern_detection_spec_witness :
    maybeDetectPattern { initBuilder "S" with detectedPattern := some "buybacks" } =
      { initBuilder "S" with detectedPattern := some "buybacks" }
    ∧ (∀ c ∈ [(("type" : String), ("2" : String))],
        ∃ v, List.lookup c.1 [("type", "2")] = some v ∧ (c.2 = "*" ∨ v = c.2))
    ∧ detectQueryPattern [("type", "1")] = some "private_placements" := by
  refine ⟨?_, ?_, ?_⟩
  · exact pattern_detection_spec.1 _ "buybacks" rfl (by decide)
  · exact fun c hc =>
      (pattern_detection_spec.2.1 [("type", "2")] [("type", "2")]).mp (by decide) c hc
  · exact pattern_detection_spec.2.2.1 [("type", "1")] []
      (QUERY_PATTERNS.headD ⟨"", ⟨[], []⟩⟩) QUERY_PATTERNS.tail rfl (by decide) (by simp)

/-- The end-to-end example's request mapping, in its literal order. -/
def c7Params : List (String × String) :=
  [("type", "14"), ("year", "gte:2020"), ("groupBy", "industry"),
   ("orderBy", "value:desc"), ("limit", "5")]

set_option maxRecDepth 4096 in
/-- C7 (counterexample): on the end-to-end example input the select list is
exactly the grouped industry field — no aggregate alias is ever added to
the selection, contradicting the claim that the rendered query selects "the
grouped industry field and an aggregate alias". -/
theorem end_to_end_no_aggregate_counterexample :
    (parseRequestParams "S" c7Params).map (·.selectFields) =
      .ok ["si.simpleIndustryId"] := by decide

set_option maxHeartbeats 1000000 in
set_option maxRecDepth 4096 in
/-- C7 (amended): the end-to-end example renders a query that selects only
the grouped industry field (no aggregate alias), is filtered on type
equality, year range and the injected default statuses, grouped by the
industry field, ordered `value DESC`, limited to 5 rows, and contains the
industry-table join ordered after its company-table prerequisite. -/
theorem end_to_end_buyback_amended :
    (parseRequestParams "S" c7Params).map buildQuery = .ok
      ("SELECT si.simpleIndustryId FROM S.ciqTransaction tr " ++
       "JOIN S.ciqCompany c ON tr.companyId = c.companyId " ++
       "JOIN S.ciqTransactionType tt ON tr.transactionIdTypeId = tt.transactionIdTypeId " ++
       "JOIN S.ciqCompany company ON tr.companyId = company.companyId " ++
       "JOIN S.ciqSimpleIndustry si ON c.simpleIndustryId = si.simpleIndustryId " ++
       "WHERE tr.transactionIdTypeId = '14' AND tr.announcedYear >= '2020' " ++
       "AND tr.statusId IN (1, 2, 3, 8, 9, 10) " ++
       "GROUP BY si.simpleIndustryId ORDER BY value DESC LIMIT 5")
    ∧ (parseRequestParams "S" c7Params).map (·.whereConditions) = .ok
        ["tr.transactionIdTypeId = '14'", "tr.announcedYear >= '2020'",
         "tr.statusId IN (1, 2, 3, 8, 9, 10)"]
    ∧ (parseRequestParams "S" c7Params).map (·.groupByFields) = .ok ["si.simpleIndustryId"]
    ∧ (parseRequestParams "S" c7Params).map (·.orderByClauses) = .ok ["value DESC"]
    ∧ (parseRequestParams "S" c7Params).map (·.limitValue) = .ok (some 5)
    ∧ (parseRequestParams "S" c7Params).map (fun st => (orderJoins st.joins).1) =
        .ok ["company", "transaction_type", "company_alt", "industry"] := by
  refine ⟨by decide, by decide, by decide, by decide, by decide, by decide⟩

theorem applyDefaultSelect_limitValue (s : BuilderState) :
    (applyDefaultSelect s).limitValue = s.limitValue := by
  unfold applyDefaultSelect; split <;> rfl

theorem applyDefaultSelect_offsetValue (s : BuilderState) :
    (applyDefaultSelect s).offsetValue = s.offsetValue := by
  unfold applyDefaultSelect; split <;> rfl

theorem maybeDetectPattern_limitValue (s : BuilderState) :
    (maybeDetectPattern s).limitValue = s.limitValue := by
  unfold maybeDetectPattern
  split
  · split <;> rfl
  · rfl

theorem maybeDetectPattern_offsetValue (s : BuilderState) :
    (maybeDetectPattern s).offsetValue = s.offsetValue := by
  unfold maybeDetectPattern
  split
  · split <;> rfl
  · rfl

theorem addPatternJoins_limitValue (s : BuilderState) :
    (addPatternJoins s).limitValue = s.limitValue := by
  unfold addPatternJoins
  repeat' split
  all_goals rfl

theorem addPatternJoins_offsetValue (s : BuilderState) :
    (addPatternJoins s).offsetValue = s.offsetValue := by
  unfold addPatternJoins
  repeat' split
  all_goals rfl

theorem analyzeFieldUsage_limitValue (s : BuilderState) :
    (analyzeFieldUsage s).limitValue = s.limitValue := by
  have h1 : (analyzeFieldUsage s).limitValue =
      (addPatternJoins (processSpecialParameters s (getQueryParams s))).limitValue := rfl
  rw [h1, addPatternJoins_limitValue]
  exact rfl

theorem analyzeFieldUsage_offsetValue (s : BuilderState) :
    (analyzeFieldUsage s).offsetValue = s.offsetValue := by
  have h1 : (analyzeFieldUsage s).offsetValue =
      (addPatternJoins (processSpecialParameters s (getQueryParams s))).offsetValue := rfl
  rw [h1, addPatternJoins_offsetValue]
  exact rfl

theorem applyOrFold_limitValue (s : BuilderState) :
    (applyOrFold s).limitValue = s.limitValue := by
  unfold applyOrFold; split <;> rfl

theorem applyOrFold_offsetValue (s : BuilderState) :
    (applyOrFold s).offsetValue = s.offsetValue := by
  unfold applyOrFold; split <;> rfl

theorem parseFinish_limitValue (st : BuilderState) :
    (parseFinish st).limitValue = st.limitValue := by
  have h1 : (parseFinish st).limitValue =
      (applyOrFold (analyzeFieldUsage (maybeDetectPattern (applyDefaultSelect st)))).limitValue :=
    rfl
  rw [h1, applyOrFold_limitValue, analyzeFieldUsage_limitValue, maybeDetectPattern_limitValue,
    applyDefaultSelect_limitValue]

theorem parseFinish_offsetValue (st : BuilderState) :
    (parseFinish st).offsetValue = st.offsetValue := by
  have h1 : (parseFinish st).offsetValue =
      (applyOrFold (analyzeFieldUsage (maybeDetectPattern (applyDefaultSelect st)))).offsetValue :=
    rfl
  rw [h1, applyOrFold_offsetValue, analyzeFieldUsage_offsetValue, maybeDetectPattern_offsetValue,
    applyDefaultSelect_offsetValue]

/-- C8 (counterexample): negative pagination values are accepted and
stored, contradicting the claim that accepted limit/offset values are
non-negative integers. -/
theorem pagination_negative_counterexample :
    (parseRequestParams "S" [("limit", "-3")]).map (·.limitValue) = .ok (some (-3)) ∧
    (parseRequestParams "S" [("offset", "-7"), ("limit", "2")]).map (·.offsetValue) =
      .ok (some (-7)) := by
  refine ⟨by decide, by decide⟩

/-- C8 (amended): a limit/offset value that does not parse as an
(optionally signed, whitespace-tolerant) integer makes
`parse_request_params` raise a BuildError synchronously; any value that
parses — negative ones included — is accepted and stored as the parsed
integer. -/
theorem pagination_parsing (schema v : String) :
    (parseInt v = none →
      (∃ e, parseRequestParams schema [("limit", v)] = .error e) ∧
      (∃ e, parseRequestParams schema [("offset", v)] = .error e)) ∧
    (∀ n, parseInt v = some n →
      (∃ st, parseRequestParams schema [("limit", v)] = .ok st ∧ st.limitValue = some n) ∧
      (∃ st, parseRequestParams schema [("offset", v)] = .ok st ∧ st.offsetValue = some n)) := by
  constructor
  · intro h
    constructor
    · exact ⟨"Invalid numeric value: " ++ ("invalid literal for int() with base 10: " ++ v),
        by simp [parseRequestParams, processParam, h]⟩
    · exact ⟨"Invalid numeric value: " ++ ("invalid literal for int() with base 10: " ++ v),
        by simp [parseRequestParams, processParam, h]⟩
  · intro n h
    constructor
    · refine ⟨parseFinish { initBuilder schema with limitValue := some n }, ?_, ?_⟩
      · simp [parseRequestParams, processParam, h]
      · rw [parseFinish_limitValue]
    · refine ⟨parseFinish { initBuilder schema with offsetValue := some n }, ?_, ?_⟩
      · simp [parseRequestParams, processParam, h]
      · rw [parseFinish_offsetValue]

/-- Witness for C8 (amended): an unparsable limit raises; a parsable limit
is stored. -/
theorem pagination_parsing_witness :
    (∃ e, parseRequestParams "S" [("limit", "x")] = .error e) ∧
    (∃ st, parseRequestParams "S" [("limit", "7")] = .ok st ∧ st.limitValue = some 7) :=
  ⟨((pagination_parsing "S" "x").1 (by decide)).1,
   ((pagination_parsing "S" "7").2 7 (by decide)).1⟩

/-- C9: with no limit set, the rendered query has no LIMIT/OFFSET clause at
all and the output is independent of any stored offset — the offset is
silently discarded at render time, because an OFFSET fragment is emitted
only inside the LIMIT branch. -/
theorem offset_without_limit (st : BuilderState) (h : st.limitValue = none) :
    limitClause st = "" ∧ buildQuery st = buildQuery { st with offsetValue := none } := by
  have h1 : limitClause st = "" := by unfold limitClause; rw [h]
  have h2 : limitClause { st with offsetValue := none } = "" := by
    unfold limitClause
    rw [show ({ st with offsetValue := none } : BuilderState).limitValue = st.limitValue from rfl, h]
  refine ⟨h1, ?_⟩
  unfold buildQuery buildQueryParts
  rw [h1, h2]
  rfl

/-- Witness for C9 at a builder with an offset but no limit. -/
theorem offset_without_limit_witness :
    limitClause { initBuilder "S" with offsetValue := some 5 } = "" ∧
    buildQuery { initBuilder "S" with offsetValue := some 5 } =
      buildQuery { { initBuilder "S" with offsetValue := some 5 } with offsetValue := none } :=
  offset_without_limit { initBuilder "S" with offsetValue := some 5 } rfl

theorem addDefaultStatusFilter_ne_nil (conds : List String) :
    addDefaultStatusFilter conds ≠ [] := by
  unfold addDefaultStatusFilter
  split
  · intro he
    rename_i hany
    rw [he] at hany
    simp at hany
  · simp

theorem parseFinish_where (st : BuilderState) :
    ∃ w, (parseFinish st).whereConditions = addDefaultStatusFilter w := ⟨_, rfl⟩

/-- C10: every successful run of `parse_request_params` leaves a non-empty
predicate list (its last step is `_add_default_status_filter`, whose output
is never empty), so every rendered query carries a WHERE clause. -/
theorem where_clause_always_present (schema : String) (params : List (String × String))
    (st : BuilderState) (h : parseRequestParams schema params = .ok st) :
    st.whereConditions ≠ [] ∧
    ("WHERE " ++ joinWith " AND " st.whereConditions) ∈ buildQueryParts st := by
  obtain ⟨st₀, hst⟩ : ∃ st₀, st = parseFinish st₀ := by
    unfold parseRequestParams at h
    cases hf : params.foldlM processParam (initBuilder schema) with
    | ok s =>
      rw [hf] at h
      simp at h
      exact ⟨s, h.symm⟩
    | error e =>
      rw [hf] at h
      cases e <;> simp at h
  subst hst
  obtain ⟨w, hw⟩ := parseFinish_where st₀
  have hne : (parseFinish st₀).whereConditions ≠ [] := by
    rw [hw]; exact addDefaultStatusFilter_ne_nil w
  refine ⟨hne, ?_⟩
  have hwc : whereClause (parseFinish st₀) =
      "WHERE " ++ joinWith " AND " (parseFinish st₀).whereConditions := by
    unfold whereClause
    rw [if_neg (by simpa [List.isEmpty_iff] using hne)]
  have hne2 : ("WHERE " ++ joinWith " AND " (parseFinish st₀).whereConditions) ≠ "" := by
    intro hx
    have hlen := congrArg String.length hx
    rw [String.length_append] at hlen
    rw [show ("WHERE " : String).length = 6 from rfl] at hlen
    rw [show ("" : String).length = 0 from rfl] at hlen
    omega
  unfold buildQueryParts
  rw [hwc, if_neg hne2]
  simp

/-- Witness for C10 at the empty request (only the injected default status
predicate is present). -/
theorem where_clause_always_present_witness :
    (parseFinish (initBuilder "S")).whereConditions ≠ [] ∧
    ("WHERE " ++ joinWith " AND " (parseFinish (initBuilder "S")).whereConditions) ∈
      buildQueryParts (parseFinish (initBuilder "S")) :=
  where_clause_always_present "S" [] (parseFinish (initBuilder "S")) rfl

end QB
